import Mathlib

set_option autoImplicit false

/-!
Shallow embedding of the type-inference and schema-detection core of the
Domain-Aware-Ontology-Generator repository:
  src/utils/type_detector.py  (TypeClassifier, DateTimeFormatDetector,
                               ColumnTypeAggregator)
  src/parsers/json_parser.py  (JSONStructureFlattener, SchemaBuilder)

Modelling conventions:
* Python scalar values are a closed inductive `Value`.  Python `float` and
  `datetime` objects are abstracted by their display string (classification
  never inspects the payload, and `str()` of such a value is its display
  string); numeric-literal parsing is modelled for ASCII text, matching
  CPython for all ASCII inputs.
* Python dicts are ordered association lists (insertion order, unique keys);
  `dict.__setitem__` keeps the position of an existing key.
* `float` arithmetic in `infer_column_type` (ratio comparison against the
  threshold, and `len(data) * 0.5`) is modelled with exact rationals: the
  constants 0.8 and 0.5 and the small counts involved are exactly the
  rationals used here.
* `Counter.most_common(1)` resolves ties towards the earliest-inserted key
  (CPython `heapq.nlargest` is stable); the tally is an association list in
  first-insertion order and `mostCommon` picks the leftmost maximal entry.
-/

/-- The seven canonical type tags of `DataType` in src/utils/type_detector.py. -/
inductive DataType where
  | string
  | integer
  | float
  | boolean
  | datetime
  | null
  | unknown
deriving DecidableEq

/-- The lower-case tag name, `DataType(...).value` in the source. -/
def typeTagName : DataType → String
  | DataType.string => "string"
  | DataType.integer => "integer"
  | DataType.float => "float"
  | DataType.boolean => "boolean"
  | DataType.datetime => "datetime"
  | DataType.null => "null"
  | DataType.unknown => "unknown"

/-- In-memory Python values reaching the core: None, bool, int, float,
datetime, str, dict (string keys, insertion-ordered) and list.  `float` and
`datetime` carry their display string only. -/
inductive Value where
  | none : Value
  | bool : Bool → Value
  | int : Int → Value
  | float : String → Value
  | str : String → Value
  | datetime : String → Value
  | dict : List (String × Value) → Value
  | list : List Value → Value

/-- A Python dict with string keys: association list in insertion order. -/
abbrev PyDict := List (String × Value)

/-- ASCII decimal digit test. -/
def isDigitChar (c : Char) : Bool := decide ('0' ≤ c) && decide (c ≤ '9')

/-- Python `str.strip` whitespace set (ASCII). -/
def isPySpace (c : Char) : Bool :=
  c = ' ' || c = '\t' || c = '\n' || c = '\r' || c = '\x0b' || c = '\x0c'

/-- Characters of a string after Python `str.strip()`. -/
def pyStripChars (l : List Char) : List Char :=
  ((l.dropWhile isPySpace).reverse.dropWhile isPySpace).reverse

/-- Python `str.strip()`. -/
def pyStrip (s : String) : String := String.mk (pyStripChars s.data)

/-- Python `str.upper()` (ASCII letters). -/
def pyUpper (s : String) : String := String.mk (s.data.map Char.toUpper)

/-- Python `str.lower()` (ASCII letters). -/
def pyLower (s : String) : String := String.mk (s.data.map Char.toLower)

/-- Tail of a Python integer literal after its first digit: `("_"? digit)*`
(an underscore must sit between two digits). -/
def digitsUS : List Char → Bool
  | [] => true
  | '_' :: c :: rest => isDigitChar c && digitsUS rest
  | c :: rest => isDigitChar c && digitsUS rest

/-- A Python `digitpart`: one or more digits with single interior
underscores. -/
def pyDigitPart : List Char → Bool
  | [] => false
  | c :: rest => isDigitChar c && digitsUS rest

/-- Successful `int(value)` on an already-stripped ASCII string: optional
sign then a digitpart. -/
def pyIntChars : List Char → Bool
  | '+' :: rest => pyDigitPart rest
  | '-' :: rest => pyDigitPart rest
  | l => pyDigitPart l

/-- Whether Python `int(s)` succeeds (ASCII model; `s` already stripped). -/
def pyIntParses (s : String) : Bool := pyIntChars s.data

/-- CPython underscore rule for numeric literals: every underscore is
directly preceded and followed by a digit. -/
def underscoresOKFrom (prev : Char) : List Char → Bool
  | [] => true
  | '_' :: [] => false
  | '_' :: c :: rest => isDigitChar prev && isDigitChar c && underscoresOKFrom c rest
  | c :: rest => underscoresOKFrom c rest

/-- Underscore placement check over a whole literal. -/
def underscoresOK : List Char → Bool
  | [] => true
  | '_' :: _ => false
  | c :: rest => underscoresOKFrom c rest

/-- Consume a maximal run of digits, returning how many and the rest. -/
def takeDigits : List Char → Nat × List Char
  | [] => (0, [])
  | c :: rest =>
    if isDigitChar c then
      let p := takeDigits rest
      (p.1 + 1, p.2)
    else (0, c :: rest)

/-- One or more digits reaching the end of the string. -/
def digitsToEnd (l : List Char) : Bool :=
  let p := takeDigits l
  decide (0 < p.1) && decide (p.2 = [])

/-- Exponent digits with an optional sign, ending the string. -/
def signedDigitsToEnd : List Char → Bool
  | '+' :: rest => digitsToEnd rest
  | '-' :: rest => digitsToEnd rest
  | l => digitsToEnd l

/-- Optional exponent suffix `[(e|E)[sign]digits]` ending the string. -/
def expPart : List Char → Bool
  | [] => true
  | c :: rest => (c = 'e' || c = 'E') && signedDigitsToEnd rest

/-- Body of a Python float literal (sign removed, underscores removed):
`digits [. digits] [exp]` or `. digits [exp]`, where at least one digit
appears around the point. -/
def floatBody (l : List Char) : Bool :=
  let p := takeDigits l
  match p.2 with
  | '.' :: r2 =>
    let q := takeDigits r2
    (decide (0 < p.1) || decide (0 < q.1)) && expPart q.2
  | r => decide (0 < p.1) && expPart r

/-- Whether Python `float(s)` succeeds (ASCII model; `s` already stripped):
optional sign then `inf`, `infinity`, `nan` (case-insensitive) or a float
literal, with CPython underscore placement validated then stripped. -/
def pyFloatParses (s : String) : Bool :=
  underscoresOK s.data &&
    (let noUS := s.data.filter (fun c => c ≠ '_')
     let body := match noUS with
       | '+' :: r => r
       | '-' :: r => r
       | l => l
     let low := body.map Char.toLower
     decide (low = "inf".data) || decide (low = "infinity".data) ||
       decide (low = "nan".data) || floatBody body)

/-! ### strptime model

`datetime.strptime` compiles a format to a regex (per CPython `_strptime`)
with `re.IGNORECASE`, requires the whole string to be consumed, and then
builds a `datetime`, which validates the calendar day, a year of at least 1
and seconds at most 59.  Directive character classes (matched committed,
first alternative wins; for the eight formats used here every field is
followed by a non-digit literal or the end of the string, so committed
matching agrees with backtracking regex matching):
  %Y: four digits; %m: 1[0-2]|0[1-9]|[1-9]; %d: 3[01]|[12]d|0[1-9]|[1-9];
  %H: 2[0-3]|[0-1]d|d; %M: [0-5]d|d; %S: 6[0-1]|[0-5]d|d.
A space in the format matches one or more whitespace characters. -/

/-- One strptime directive of the formats used by the source. -/
inductive Dir where
  | y4
  | mo2
  | dy2
  | hr2
  | mi2
  | se2
  | lit : Char → Dir
deriving DecidableEq

/-- Fields collected while matching a format (strptime defaults: year 1900,
month 1, day 1, midnight). -/
structure TimeParts where
  year : Nat
  month : Nat
  day : Nat
  hour : Nat
  minute : Nat
  second : Nat
deriving DecidableEq

def TimeParts.default : TimeParts := TimeParts.mk 1900 1 1 0 0 0

def setYear (tp : TimeParts) (v : Nat) : TimeParts :=
  TimeParts.mk v tp.month tp.day tp.hour tp.minute tp.second

def setMonth (tp : TimeParts) (v : Nat) : TimeParts :=
  TimeParts.mk tp.year v tp.day tp.hour tp.minute tp.second

def setDay (tp : TimeParts) (v : Nat) : TimeParts :=
  TimeParts.mk tp.year tp.month v tp.hour tp.minute tp.second

def setHour (tp : TimeParts) (v : Nat) : TimeParts :=
  TimeParts.mk tp.year tp.month tp.day v tp.minute tp.second

def setMinute (tp : TimeParts) (v : Nat) : TimeParts :=
  TimeParts.mk tp.year tp.month tp.day tp.hour v tp.second

def setSecond (tp : TimeParts) (v : Nat) : TimeParts :=
  TimeParts.mk tp.year tp.month tp.day tp.hour tp.minute v

def digitVal (c : Char) : Nat := c.toNat - 48

def twoDigitVal (a b : Char) : Nat := digitVal a * 10 + digitVal b

/-- Match `%Y`: exactly four digits. -/
def matchYear : List Char → Option (Nat × List Char)
  | a :: b :: c :: e :: rest =>
    if isDigitChar a && isDigitChar b && isDigitChar c && isDigitChar e then
      some (((digitVal a * 10 + digitVal b) * 10 + digitVal c) * 10 + digitVal e, rest)
    else Option.none
  | _ => Option.none

/-- Match `%m`: `1[0-2]|0[1-9]|[1-9]`. -/
def matchMonth : List Char → Option (Nat × List Char)
  | a :: b :: rest =>
    if a = '1' && decide ('0' ≤ b) && decide (b ≤ '2') then some (twoDigitVal a b, rest)
    else if a = '0' && decide ('1' ≤ b) && decide (b ≤ '9') then some (twoDigitVal a b, rest)
    else if decide ('1' ≤ a) && decide (a ≤ '9') then some (digitVal a, b :: rest)
    else Option.none
  | a :: [] =>
    if decide ('1' ≤ a) && decide (a ≤ '9') then some (digitVal a, []) else Option.none
  | [] => Option.none

/-- Match `%d`: `3[01]|[12]\d|0[1-9]|[1-9]`. -/
def matchDay : List Char → Option (Nat × List Char)
  | a :: b :: rest =>
    if a = '3' && (b = '0' || b = '1') then some (twoDigitVal a b, rest)
    else if (a = '1' || a = '2') && isDigitChar b then some (twoDigitVal a b, rest)
    else if a = '0' && decide ('1' ≤ b) && decide (b ≤ '9') then some (twoDigitVal a b, rest)
    else if decide ('1' ≤ a) && decide (a ≤ '9') then some (digitVal a, b :: rest)
    else Option.none
  | a :: [] =>
    if decide ('1' ≤ a) && decide (a ≤ '9') then some (digitVal a, []) else Option.none
  | [] => Option.none

/-- Match `%H`: `2[0-3]|[0-1]\d|\d`. -/
def matchHour : List Char → Option (Nat × List Char)
  | a :: b :: rest =>
    if a = '2' && decide ('0' ≤ b) && decide (b ≤ '3') then some (twoDigitVal a b, rest)
    else if (a = '0' || a = '1') && isDigitChar b then some (twoDigitVal a b, rest)
    else if isDigitChar a then some (digitVal a, b :: rest)
    else Option.none
  | a :: [] => if isDigitChar a then some (digitVal a, []) else Option.none
  | [] => Option.none

/-- Match `%M`: `[0-5]\d|\d`. -/
def matchMinute : List Char → Option (Nat × List Char)
  | a :: b :: rest =>
    if decide ('0' ≤ a) && decide (a ≤ '5') && isDigitChar b then some (twoDigitVal a b, rest)
    else if isDigitChar a then some (digitVal a, b :: rest)
    else Option.none
  | a :: [] => if isDigitChar a then some (digitVal a, []) else Option.none
  | [] => Option.none

/-- Match `%S`: `6[0-1]|[0-5]\d|\d`. -/
def matchSecond : List Char → Option (Nat × List Char)
  | a :: b :: rest =>
    if a = '6' && (b = '0' || b = '1') then some (twoDigitVal a b, rest)
    else if decide ('0' ≤ a) && decide (a ≤ '5') && isDigitChar b then some (twoDigitVal a b, rest)
    else if isDigitChar a then some (digitVal a, b :: rest)
    else Option.none
  | a :: [] => if isDigitChar a then some (digitVal a, []) else Option.none
  | [] => Option.none

/-- Match a literal format character, case-insensitively; a space matches a
nonempty whitespace run. -/
def matchLit (c : Char) : List Char → Option (List Char)
  | [] => Option.none
  | x :: rest =>
    if c = ' ' then
      if isPySpace x then some (rest.dropWhile isPySpace) else Option.none
    else if x.toLower = c.toLower then some rest else Option.none

/-- Run a whole format against the input; the entire input must be
consumed. -/
def runFormat : List Dir → List Char → TimeParts → Option TimeParts
  | [], [], tp => some tp
  | [], _ :: _, _ => Option.none
  | Dir.y4 :: ds, l, tp =>
    match matchYear l with
    | some (v, rest) => runFormat ds rest (setYear tp v)
    | Option.none => Option.none
  | Dir.mo2 :: ds, l, tp =>
    match matchMonth l with
    | some (v, rest) => runFormat ds rest (setMonth tp v)
    | Option.none => Option.none
  | Dir.dy2 :: ds, l, tp =>
    match matchDay l with
    | some (v, rest) => runFormat ds rest (setDay tp v)
    | Option.none => Option.none
  | Dir.hr2 :: ds, l, tp =>
    match matchHour l with
    | some (v, rest) => runFormat ds rest (setHour tp v)
    | Option.none => Option.none
  | Dir.mi2 :: ds, l, tp =>
    match matchMinute l with
    | some (v, rest) => runFormat ds rest (setMinute tp v)
    | Option.none => Option.none
  | Dir.se2 :: ds, l, tp =>
    match matchSecond l with
    | some (v, rest) => runFormat ds rest (setSecond tp v)
    | Option.none => Option.none
  | Dir.lit c :: ds, l, tp =>
    match matchLit c l with
    | some rest => runFormat ds rest tp
    | Option.none => Option.none

def isLeapYear (y : Nat) : Bool := (y % 4 = 0 && decide (y % 100 ≠ 0)) || y % 400 = 0

def daysInMonth (y m : Nat) : Nat :=
  if m = 2 then (if isLeapYear y then 29 else 28)
  else if m = 4 || m = 6 || m = 9 || m = 11 then 30
  else 31

/-- Validation performed by the `datetime` constructor after the regex
match: year at least 1, a real calendar day, seconds at most 59 (the other
fields are bounded by their character classes). -/
def validParts (tp : TimeParts) : Bool :=
  decide (1 ≤ tp.year) && decide (tp.day ≤ daysInMonth tp.year tp.month) &&
    decide (tp.second ≤ 59)

/-- Whether `datetime.strptime(s, f)` succeeds. -/
def strptimeOk (f : List Dir) (s : String) : Bool :=
  match runFormat f s.data TimeParts.default with
  | some tp => validParts tp
  | Option.none => false

def fmtIsoZ : List Dir :=
  [Dir.y4, Dir.lit '-', Dir.mo2, Dir.lit '-', Dir.dy2, Dir.lit 'T',
   Dir.hr2, Dir.lit ':', Dir.mi2, Dir.lit ':', Dir.se2, Dir.lit 'Z']

def fmtIso : List Dir :=
  [Dir.y4, Dir.lit '-', Dir.mo2, Dir.lit '-', Dir.dy2, Dir.lit 'T',
   Dir.hr2, Dir.lit ':', Dir.mi2, Dir.lit ':', Dir.se2]

def fmtSql : List Dir :=
  [Dir.y4, Dir.lit '-', Dir.mo2, Dir.lit '-', Dir.dy2, Dir.lit ' ',
   Dir.hr2, Dir.lit ':', Dir.mi2, Dir.lit ':', Dir.se2]

def fmtDateOnly : List Dir := [Dir.y4, Dir.lit '-', Dir.mo2, Dir.lit '-', Dir.dy2]

def fmtDMYSlash : List Dir := [Dir.dy2, Dir.lit '/', Dir.mo2, Dir.lit '/', Dir.y4]

def fmtMDYSlash : List Dir := [Dir.mo2, Dir.lit '/', Dir.dy2, Dir.lit '/', Dir.y4]

def fmtDMYDash : List Dir := [Dir.dy2, Dir.lit '-', Dir.mo2, Dir.lit '-', Dir.y4]

def fmtYMDSlash : List Dir := [Dir.y4, Dir.lit '/', Dir.mo2, Dir.lit '/', Dir.dy2]

/-- The DATETIME_FORMATS table: format string paired with its directives,
in source order. -/
def DATETIME_FORMATS : List (String × List Dir) :=
  [("%Y-%m-%dT%H:%M:%SZ", fmtIsoZ),
   ("%Y-%m-%dT%H:%M:%S", fmtIso),
   ("%Y-%m-%d %H:%M:%S", fmtSql),
   ("%Y-%m-%d", fmtDateOnly),
   ("%d/%m/%Y", fmtDMYSlash),
   ("%m/%d/%Y", fmtMDYSlash),
   ("%d-%m-%Y", fmtDMYDash),
   ("%Y/%m/%d", fmtYMDSlash)]

/-- Consume exactly n digits. -/
def digitsN : Nat → List Char → Option (List Char)
  | 0, l => some l
  | _ + 1, [] => Option.none
  | n + 1, c :: rest => if isDigitChar c then digitsN n rest else Option.none

/-- Consume one expected character. -/
def expectChar (c : Char) : List Char → Option (List Char)
  | [] => Option.none
  | x :: rest => if x = c then some rest else Option.none

/-- End of the fallback pattern: optional single `Z`, then end. -/
def isoEnd : List Char → Bool
  | [] => true
  | ['Z'] => true
  | _ => false

/-- Tail of the fallback pattern: optional `.digits`, optional `Z`, end. -/
def isoTail : List Char → Bool
  | '.' :: rest =>
    !(rest.takeWhile isDigitChar).isEmpty && isoEnd (rest.dropWhile isDigitChar)
  | l => isoEnd l

/-- The regex fallback of `_is_datetime` (case-sensitive):
`^\d\x7b4\x7d-\d\x7b2\x7d-\d\x7b2\x7dT\d\x7b2\x7d:\d\x7b2\x7d:\d\x7b2\x7d(\.\d+)?Z?$`. -/
def isoFallback (s : String) : Bool :=
  match (((((((((digitsN 4 s.data).bind (expectChar '-')).bind (digitsN 2)).bind
      (expectChar '-')).bind (digitsN 2)).bind (expectChar 'T')).bind
      (digitsN 2)).bind (expectChar ':')).bind (digitsN 2)).bind
      (expectChar ':') |>.bind (digitsN 2) with
  | some rest => isoTail rest
  | Option.none => false

/-- `_is_datetime`: any explicit format parses, or the ISO fallback regex
matches. -/
def isDatetimeStr (s : String) : Bool :=
  DATETIME_FORMATS.any (fun p => strptimeOk p.2 s) || isoFallback s

/-- The for-loop of `detect_date_format`: first format that parses wins. -/
def findFmt : List (String × List Dir) → String → Option String
  | [], _ => Option.none
  | (nm, f) :: rest, s => if strptimeOk f s then some nm else findFmt rest s

/-- `detect_date_format(value)`: the first matching explicit format string,
or None. -/
def detectDateFormat (s : String) : Option String := findFmt DATETIME_FORMATS s

/-! ### str() and json.dumps() on values

`str(v)` and `repr(v)` agree except on strings (and on the abstracted
float/datetime payloads, which both display as their carried string).
Containers display their elements with `repr`.  The exact container text is
never inspected by any claim; it only feeds classification of raw container
values, which is total whatever the text is. -/

mutual

/-- Python `repr(v)` (string quoting/escaping simplified to a plain
single-quote wrap; container shape faithful). -/
def pyRepr : Value → String
  | Value.none => "None"
  | Value.bool b => if b then "True" else "False"
  | Value.int n => toString n
  | Value.float r => r
  | Value.str s => "\x27" ++ s ++ "\x27"
  | Value.datetime r => r
  | Value.dict d => "\x7b" ++ pyReprFields d ++ "\x7d"
  | Value.list l => "[" ++ pyReprItems l ++ "]"

/-- Comma-joined `repr(key): repr(value)` pairs of a dict. -/
def pyReprFields : List (String × Value) → String
  | [] => ""
  | (k, v) :: [] => "\x27" ++ k ++ "\x27: " ++ pyRepr v
  | (k, v) :: p :: rest => "\x27" ++ k ++ "\x27: " ++ pyRepr v ++ ", " ++ pyReprFields (p :: rest)

/-- Comma-joined element reprs of a list. -/
def pyReprItems : List Value → String
  | [] => ""
  | v :: [] => pyRepr v
  | v :: w :: rest => pyRepr v ++ ", " ++ pyReprItems (w :: rest)

end

/-- Python `str(v)`.  Scalar cases are spelled out so that they reduce
definitionally. -/
def pyStr : Value → String
  | Value.none => "None"
  | Value.bool b => if b then "True" else "False"
  | Value.int n => toString n
  | Value.float r => r
  | Value.str s => s
  | Value.datetime r => r
  | Value.dict d => "\x7b" ++ pyReprFields d ++ "\x7d"
  | Value.list l => "[" ++ pyReprItems l ++ "]"

/-- JSON string escaping for `json.dumps` (common cases). -/
def jsonEscapeChar (c : Char) : String :=
  if c = '\x22' then "\\\x22"
  else if c = '\\' then "\\\\"
  else if c = '\n' then "\\n"
  else if c = '\t' then "\\t"
  else if c = '\r' then "\\r"
  else String.singleton c

def jsonEscape (s : String) : String := String.join (s.data.map jsonEscapeChar)

mutual

/-- `json.dumps(v)` for JSON-shaped values (a `datetime` payload is junk
here; the source raises on it and the flattener is only ever applied to
decoded JSON, captured by `isJson` hypotheses). -/
def jsonDumps : Value → String
  | Value.none => "null"
  | Value.bool b => if b then "true" else "false"
  | Value.int n => toString n
  | Value.float r => r
  | Value.str s => "\x22" ++ jsonEscape s ++ "\x22"
  | Value.datetime r => r
  | Value.dict d => "\x7b" ++ jsonDumpsFields d ++ "\x7d"
  | Value.list l => "[" ++ jsonDumpsItems l ++ "]"

def jsonDumpsFields : List (String × Value) → String
  | [] => ""
  | (k, v) :: [] => "\x22" ++ jsonEscape k ++ "\x22: " ++ jsonDumps v
  | (k, v) :: p :: rest =>
    "\x22" ++ jsonEscape k ++ "\x22: " ++ jsonDumps v ++ ", " ++ jsonDumpsFields (p :: rest)

def jsonDumpsItems : List Value → String
  | [] => ""
  | v :: [] => jsonDumps v
  | v :: w :: rest => jsonDumps v ++ ", " ++ jsonDumpsItems (w :: rest)

end

mutual

/-- A decoded-JSON value: no native `datetime` anywhere. -/
def isJson : Value → Bool
  | Value.datetime _ => false
  | Value.dict d => isJsonFields d
  | Value.list l => isJsonItems l
  | _ => true

def isJsonFields : List (String × Value) → Bool
  | [] => true
  | (_, v) :: rest => isJson v && isJsonFields rest

def isJsonItems : List Value → Bool
  | [] => true
  | v :: rest => isJson v && isJsonItems rest

end

/-! ### TypeClassifier: infer_type -/

def NULL_TOKENS : List String := ["NULL", "NONE", "N/A", "NA", "NAN", "UNDEFINED"]

/-- The outer boolean-token set of the source (line 78), including the two
digits. -/
def BOOL_TOKENS_OUTER : List String := ["TRUE", "FALSE", "YES", "NO", "Y", "N", "1", "0"]

/-- The inner boolean-token set of the source (line 79), excluding the two
digits. -/
def BOOL_TOKENS_INNER : List String := ["TRUE", "FALSE", "YES", "NO", "Y", "N"]

/-- Lines 67-104 of `infer_type`: the text analysis applied to the value
after conversion to a string.  The nested conditional on the boolean-token
sets mirrors lines 78-81: a digit string falls through to the integer
check. -/
def inferTypeTextTail (v : String) : DataType :=
  if pyIntParses v && !v.data.contains '.' && !(v.data.map Char.toLower).contains 'e' then
    DataType.integer
  else if pyFloatParses v then DataType.float
  else if isDatetimeStr v then DataType.datetime
  else DataType.string

def inferTypeText (s : String) : DataType :=
  if pyStrip s = "" then DataType.null
  else if NULL_TOKENS.contains (pyUpper (pyStrip s)) then DataType.null
  else if BOOL_TOKENS_OUTER.contains (pyUpper (pyStrip s)) then
    (if BOOL_TOKENS_INNER.contains (pyUpper (pyStrip s)) then DataType.boolean
     else inferTypeTextTail (pyStrip s))
  else inferTypeTextTail (pyStrip s)

/-- `infer_type(value)` of src/utils/type_detector.py.  The line-50 check
`isinstance(value, str) and value.strip() == ''` coincides with the line-70
empty check inside the text analysis, so the string case delegates
directly. -/
def inferType : Value → DataType
  | Value.none => DataType.null
  | Value.bool _ => DataType.boolean
  | Value.int _ => DataType.integer
  | Value.float _ => DataType.float
  | Value.datetime _ => DataType.datetime
  | Value.str s => inferTypeText s
  | Value.dict d => inferTypeText (pyStr (Value.dict d))
  | Value.list l => inferTypeText (pyStr (Value.list l))

/-! ### ColumnTypeAggregator: infer_column_type -/

/-- Increment a Counter key: bump in place if present, else append with
count one (Counter preserves first-insertion order). -/
def tallyAdd (t : List (DataType × Nat)) (k : DataType) : List (DataType × Nat) :=
  if t.any (fun p => p.1 = k) then
    t.map (fun p => if p.1 = k then (p.1, p.2 + 1) else p)
  else t ++ [(k, 1)]

/-- Per-value classifications of a column. -/
def classifications (values : List Value) : List DataType := values.map inferType

/-- The non-null classifications, in scan order. -/
def nonNullTypes (values : List Value) : List DataType :=
  (classifications values).filter (fun t => t ≠ DataType.null)

/-- The `type_counts` Counter after the scan loop. -/
def typeCounts (values : List Value) : List (DataType × Nat) :=
  (nonNullTypes values).foldl tallyAdd []

/-- The `null_count` accumulated by the scan loop. -/
def nullCount (values : List Value) : Nat :=
  ((classifications values).filter (fun t => t = DataType.null)).length

/-- `Counter.most_common(1)[0]`: leftmost entry of maximal count (CPython
ties break towards the earliest-inserted key).  The empty case is never
reached by the source (guarded by `if not type_counts`). -/
def mostCommon : List (DataType × Nat) → DataType × Nat
  | [] => (DataType.unknown, 0)
  | p :: rest => rest.foldl (fun best q => if best.2 < q.2 then q else best) p

/-- `agreement_ratio`: most-common count over non-null total, zero when the
total is zero. -/
def agreementRatio (values : List Value) : Rat :=
  let totalNonNull := values.length - nullCount values
  if 0 < totalNonNull then
    ((mostCommon (typeCounts values)).2 : Rat) / (totalNonNull : Rat)
  else 0

/-- `infer_column_type(values, threshold)` of src/utils/type_detector.py
(default threshold 0.8 = 4/5). -/
def inferColumnType (values : List Value) (threshold : Rat) : DataType :=
  if values.isEmpty then DataType.unknown
  else
    let tally := typeCounts values
    if tally.isEmpty then DataType.null
    else if threshold ≤ agreementRatio values then (mostCommon tally).1
    else if tally.any (fun p => p.1 = DataType.integer) &&
            tally.any (fun p => p.1 = DataType.float) then DataType.float
    else DataType.string

/-- The default threshold 0.8. -/
def defaultThreshold : Rat := (4 : Rat) / 5

/-! ### SchemaBuilder: analyze_field_types and detect_schema -/

/-- Python `v is None`. -/
def isNoneValue : Value → Bool
  | Value.none => true
  | _ => false

/-- Python hashability of the modelled values: dicts and lists are
unhashable (`set(...)` raises `TypeError` on them), everything else is
hashable. -/
def hashable : Value → Bool
  | Value.dict _ => false
  | Value.list _ => false
  | _ => true

/-- Equality used for set dedup of sample values; only scalar (hashable)
values ever reach it, since `set(...)` raises first otherwise.  (Python
cross-type numeric equality such as `1 == 1.0` is not reproduced; no claim
inspects sample contents.) -/
def valueEqB : Value → Value → Bool
  | Value.none, Value.none => true
  | Value.bool a, Value.bool b => a = b
  | Value.int a, Value.int b => a = b
  | Value.float a, Value.float b => a = b
  | Value.str a, Value.str b => a = b
  | Value.datetime a, Value.datetime b => a = b
  | _, _ => false

/-- First occurrences of a list, in order of first appearance. -/
def firstSeen {α : Type} [DecidableEq α] : List α → List α
  | [] => []
  | x :: xs => x :: (firstSeen xs).filter (fun y => y ≠ x)

/-- First occurrences under an explicit boolean equality. -/
def firstSeenBy (eq : Value → Value → Bool) : List Value → List Value
  | [] => []
  | x :: xs => x :: (firstSeenBy eq xs).filter (fun y => !eq y x)

/-- Python `record.get(field)` with a None default. -/
def dictGetD (r : PyDict) (k : String) : Value :=
  match r.find? (fun p => p.1 = k) with
  | some p => p.2
  | Option.none => Value.none

/-- One value per record for a field, None when the key is absent. -/
def fieldValues (records : List PyDict) (f : String) : List Value :=
  records.map (fun r => dictGetD r f)

/-- `analyze_field_types(records)[field]`: the column type of one field at
the default threshold.  (The source stores these in a dict keyed by a set
iteration; only lookups are observable, so the map is modelled as this
function.) -/
def fieldTypeOf (records : List PyDict) (f : String) : DataType :=
  inferColumnType (fieldValues records f) defaultThreshold

/-- The union of the field names of all records, in first-appearance order
(the source keeps them in a Python `set`, whose iteration order is
arbitrary; `detectSchema` below takes that order as an argument). -/
def unionKeys (records : List PyDict) : List String :=
  firstSeen ((records.map (fun r => r.map Prod.fst)).flatten)

/-- The `FieldMetadata` dataclass of src/core/parsed_data.py. -/
structure FieldMetadata where
  name : String
  data_type : String
  nullable : Bool
  null_count : Nat
  unique_count : Nat
  sample_values : List Value

/-- The per-field body of the `detect_schema` loop.  `set(non_null_values)`
raises `TypeError` as soon as a non-null value is unhashable, which the
`Except.error` branch models; on success the set contents are modelled by
first-seen dedup (the real set order is arbitrary and no claim observes
it). -/
def fieldNonNull (records : List PyDict) (f : String) : List Value :=
  (fieldValues records f).filter (fun v => !isNoneValue v)

def buildFieldMetadata (records : List PyDict) (f : String) : Except String FieldMetadata :=
  if (fieldNonNull records f).all hashable then
    Except.ok (FieldMetadata.mk f
      (typeTagName (fieldTypeOf records f))
      (decide ((fieldNonNull records f).length < (fieldValues records f).length))
      ((fieldValues records f).length - (fieldNonNull records f).length)
      (firstSeen ((fieldNonNull records f).map pyStr)).length
      ((firstSeenBy valueEqB (fieldNonNull records f)).take 5))
  else Except.error "TypeError: unhashable type"

/-- The `for field_name in all_fields` loop of `detect_schema`, iterating
the field set in the given order and stopping at the first raise. -/
def buildAll (records : List PyDict) : List String → Except String (List (String × FieldMetadata))
  | [] => Except.ok []
  | f :: rest =>
    match buildFieldMetadata records f with
    | Except.ok md =>
      match buildAll records rest with
      | Except.ok tl => Except.ok ((f, md) :: tl)
      | Except.error e => Except.error e
    | Except.error e => Except.error e

/-- `detect_schema(records)['field_metadata']` of src/parsers/json_parser.py.
`fieldOrder` is the iteration order of the Python set `all_fields`; it is an
arbitrary permutation of `unionKeys records` chosen by the runtime, so the
theorems quantify over (or pick) a permutation. -/
def detectSchema (records : List PyDict) (fieldOrder : List String) :
    Except String (List (String × FieldMetadata)) :=
  if records.isEmpty then Except.ok []
  else buildAll records fieldOrder

/-- The literal `'hierarchy': \x7b\x7d` of `CSVParser.detect_schema`
(src/parsers/csv_parser.py line 91): tabular input never carries a
hierarchy. -/
def csvSchemaHierarchy : List (String × Nat) := []

/-! ### JSONStructureFlattener -/

/-- Python `dict.__setitem__`: replace in place, else append. -/
def dictSet (d : PyDict) (k : String) (v : Value) : PyDict :=
  if d.any (fun p => p.1 = k) then
    d.map (fun p => if p.1 = k then (k, v) else p)
  else d ++ [(k, v)]

/-- Python `dict.update`: set each pair of the second dict in order
(last write wins on collisions). -/
def dictUpdate (d e : PyDict) : PyDict := e.foldl (fun acc p => dictSet acc p.1 p.2) d

/-- `isinstance(v, (str, int, float, bool))` of the scalar-list branch. -/
def isScalarPy : Value → Bool
  | Value.str _ => true
  | Value.int _ => true
  | Value.float _ => true
  | Value.bool _ => true
  | _ => false

/-- `', '.join(str(v) for v in value)`. -/
def joinScalars (items : List Value) : String := ", ".intercalate (items.map pyStr)

/-- One key/value step of `_flatten_object`.  `recDict` is the recursive
flattener for nested dicts when `current_depth < max_depth`, and absent at
maximal depth (where the raw mapping is stored). -/
def flattenEntry (recDict : Option (String → List (String × Value) → PyDict))
    (acc : PyDict) (newKey : String) (v : Value) : PyDict :=
  match v with
  | Value.dict d =>
    match recDict with
    | some fl => dictUpdate acc (fl (newKey ++ "_") d)
    | Option.none => dictSet acc newKey (Value.dict d)
  | Value.list items =>
    match items with
    | Value.dict x :: xs =>
      dictSet acc newKey (Value.str (jsonDumps (Value.list (Value.dict x :: xs))))
    | _ =>
      if items.all isScalarPy then dictSet acc newKey (Value.str (joinScalars items))
      else dictSet acc newKey (Value.str (jsonDumps (Value.list items)))
  | _ => dictSet acc newKey v

/-- The `for key, value in obj.items()` loop of `_flatten_object`
(`new_key = prefix + key`; with an empty prefix this is `key` itself, as in
the source's conditional f-string). -/
def flattenLoop (recDict : Option (String → List (String × Value) → PyDict)) (pre : String) :
    List (String × Value) → PyDict → PyDict
  | [], acc => acc
  | (k, v) :: rest, acc => flattenLoop recDict pre rest (flattenEntry recDict acc (pre ++ k) v)

/-- `_flatten_object` with `fuel = max_depth - current_depth` remaining
levels of dict recursion. -/
def flattenAtDepth : Nat → String → List (String × Value) → PyDict
  | 0, pre, obj => flattenLoop Option.none pre obj []
  | f + 1, pre, obj => flattenLoop (some (flattenAtDepth f)) pre obj []

/-- The source's `max_depth` default. -/
def MAX_DEPTH : Nat := 3

/-- `_flatten_object(obj, prefix)` at its default depth parameters. -/
def flattenObject (pre : String) (obj : List (String × Value)) : PyDict :=
  flattenAtDepth MAX_DEPTH pre obj

def valueIsList : Value → Bool
  | Value.list _ => true
  | _ => false

def listItems : Value → List Value
  | Value.list l => l
  | _ => []

def listLen (v : Value) : Nat := (listItems v).length

/-- Number of list-valued entries of a dict. -/
def listCount (d : PyDict) : Nat := (d.filter (fun p => valueIsList p.2)).length

/-- `_is_collection_dict(data)`: `list_count > 0 and list_count >=
len(data) * 0.5` (the float product is exact, modelled as rationals). -/
def isCollectionDict (d : PyDict) : Bool :=
  decide (0 < listCount d) &&
    decide ((d.length : Rat) * ((1 : Rat) / 2) ≤ (listCount d : Rat))

/-- One item of a collection: flattened with the `k_` prefix and stamped
with `_entity_type`, or wrapped for a non-dict item. -/
def flattenCollectionItem (k : String) (item : Value) : PyDict :=
  match item with
  | Value.dict o => dictSet (flattenObject (k ++ "_") o) "_entity_type" (Value.str k)
  | _ => [("_entity_type", Value.str k), ("value", item)]

/-- `_flatten_collection_dict(data)` together with the `hierarchy_map` it
accumulates: records and hierarchy entries in key order, non-list values
skipped. -/
def collectStep (st : List PyDict × List (String × Nat)) (p : String × Value) :
    List PyDict × List (String × Nat) :=
  match p.2 with
  | Value.list items =>
    (st.1 ++ items.map (flattenCollectionItem p.1), st.2 ++ [(p.1, items.length)])
  | _ => st

def flattenCollectionDict (d : PyDict) : List PyDict × List (String × Nat) :=
  d.foldl collectStep ([], [])

/-- `_flatten_records(records)`. -/
def flattenRecords (rs : List Value) : List PyDict :=
  rs.map (fun r =>
    match r with
    | Value.dict o => flattenObject "" o
    | _ => [("value", r)])

/-- `_extract_records(data)` paired with the hierarchy map it leaves behind
(the instance field is reset on entry, so the pair is a pure function of
the input). -/
def extractRecords (data : Value) : List PyDict × List (String × Nat) :=
  match data with
  | Value.list rs => (flattenRecords rs, [])
  | Value.dict d =>
    if isCollectionDict d then flattenCollectionDict d
    else ([flattenObject "" d], [])
  | v => ([[("value", v)]], [])

/-! ### Claim-side definitions

These restate claim wording (not the source) and are compared with the
source embeddings by the refinement theorems below. -/

/-- Claim C2's flat decision list for text values: null tokens, then the
six boolean tokens (digits excluded), then integer literals (no decimal
point or exponent marker), float literals, datetime patterns, else string
(the numeric/datetime chain is `inferTypeTextTail`, stated by the claim in
the same order as the source). -/
def classifySpecText (s : String) : DataType :=
  if pyStrip s = "" then DataType.null
  else if NULL_TOKENS.contains (pyUpper (pyStrip s)) then DataType.null
  else if BOOL_TOKENS_INNER.contains (pyUpper (pyStrip s)) then DataType.boolean
  else inferTypeTextTail (pyStrip s)

/-- Claim C2's whole decision order: native null/empty, boolean, integer,
float, datetime first, then the text rules. -/
def classifySpec : Value → DataType
  | Value.none => DataType.null
  | Value.bool _ => DataType.boolean
  | Value.int _ => DataType.integer
  | Value.float _ => DataType.float
  | Value.datetime _ => DataType.datetime
  | Value.str s => classifySpecText s
  | Value.dict d => classifySpecText (pyStr (Value.dict d))
  | Value.list l => classifySpecText (pyStr (Value.list l))

/-- One key/value case of claim C5's recursive flattening rule, phrased
with the claim's upward depth counter: a nested object at `depth <
max_depth` is recursed (the recursive flattener `recDict` carries the next
depth) and merged with last-write-wins; a nested object at `depth ==
max_depth` is stored raw; a list headed by an object becomes its JSON text;
an all-scalar list is joined with ", " (empty list: empty text); any other
primitive is stored unchanged.  (`recDict` is absent exactly when `depth`
has reached `max_depth`; the arm where the two disagree is unreachable and
mirrors the raw-store rule.) -/
def flattenSpecEntry (recDict : Option (String → List (String × Value) → PyDict))
    (depth : Nat) (acc : PyDict) (newKey : String) (v : Value) : PyDict :=
  match v with
  | Value.dict d =>
    if depth < MAX_DEPTH then
      match recDict with
      | some fl => dictUpdate acc (fl (newKey ++ "_") d)
      | Option.none => dictSet acc newKey (Value.dict d)
    else dictSet acc newKey (Value.dict d)
  | Value.list items =>
    match items with
    | Value.dict x :: xs =>
      dictSet acc newKey (Value.str (jsonDumps (Value.list (Value.dict x :: xs))))
    | _ =>
      if items.all isScalarPy then dictSet acc newKey (Value.str (joinScalars items))
      else dictSet acc newKey (Value.str (jsonDumps (Value.list items)))
  | _ => dictSet acc newKey v

/-- The claim-side loop over an object's key/value pairs. -/
def flattenSpecLoop (recDict : Option (String → List (String × Value) → PyDict))
    (depth : Nat) (pre : String) : List (String × Value) → PyDict → PyDict
  | [], acc => acc
  | (k, v) :: rest, acc =>
    flattenSpecLoop recDict depth pre rest (flattenSpecEntry recDict depth acc (pre ++ k) v)

/-- Claim C5's flattening rule observed at a given depth, with the levels
still available below `max_depth` threaded structurally. -/
def flattenSpecAt : Nat → Nat → String → List (String × Value) → PyDict
  | 0, depth, pre, obj => flattenSpecLoop Option.none depth pre obj []
  | f + 1, depth, pre, obj =>
    flattenSpecLoop (some (flattenSpecAt f (depth + 1))) depth pre obj []

/-- Claim C5's flattening of an object observed at a given depth. -/
def flattenSpec (depth : Nat) (pre : String) (obj : List (String × Value)) : PyDict :=
  flattenSpecAt (MAX_DEPTH - depth) depth pre obj

/-- Claim C6's collection-dict criterion: at least one list value and
list-valued keys at least half of all keys. -/
def isCollectionDictSpec (d : PyDict) : Bool :=
  d.any (fun p => valueIsList p.2) && decide (d.length ≤ 2 * listCount d)

/-- Claim C6's record sequence: for each list-valued key in order, its
items flattened/stamped; non-list keys dropped. -/
def collectionRecordsSpec (d : PyDict) : List PyDict :=
  ((d.filter (fun p => valueIsList p.2)).map
    (fun p => (listItems p.2).map (flattenCollectionItem p.1))).flatten

/-- Claim C6's hierarchy: each list-valued key mapped to its list length. -/
def hierarchySpec (d : PyDict) : List (String × Nat) :=
  (d.filter (fun p => valueIsList p.2)).map (fun p => (p.1, listLen p.2))

/-! ### Helpers for claim statements -/

/-- The maximal count appearing in the tally. -/
def maxTypeCount (values : List Value) : Nat :=
  ((typeCounts values).map Prod.snd).foldr max 0

/-- The first type, scanning the non-null classifications in input order,
whose total count is maximal. -/
def firstMaxType (values : List Value) : Option DataType :=
  (nonNullTypes values).find? (fun t => (nonNullTypes values).count t = maxTypeCount values)

/-- Field-name list of a schema result, None on a raise. -/
def schemaKeys (e : Except String (List (String × FieldMetadata))) : Option (List String) :=
  match e with
  | Except.ok l => some (l.map Prod.fst)
  | Except.error _ => Option.none

/-- A five-level nested object: flattening stores the level-four mapping
raw (depth hits `max_depth`), so schema detection meets an unhashable
field value. -/
def deepNested : Value :=
  Value.dict [("a", Value.dict [("b", Value.dict [("c", Value.dict
    [("d", Value.dict [("e", Value.int 1)])])])])]

/-- The mixed numeric column of claim C3's example. -/
def mixedNumericColumn : List Value :=
  [Value.int 1, Value.float "2.5", Value.int 3, Value.float "4.0"]

/-- Maximal count in a tally. -/
def maxSnd (t : List (DataType × Nat)) : Nat := (t.map Prod.snd).foldr max 0

/-- The dict-recursion argument corresponding to a remaining fuel. -/
def recOpt : Nat → Option (String → List (String × Value) → PyDict)
  | 0 => Option.none
  | f + 1 => some (flattenAtDepth f)

/-- Two records whose first-appearance field order is b, a. -/
def c9Records : List PyDict := [[("b", Value.int 1)], [("a", Value.int 2)]]

/-! ## Theorems -/

theorem inner_token_mem_outer (u : String) (h : u ∈ BOOL_TOKENS_INNER) :
    u ∈ BOOL_TOKENS_OUTER := by
  simp only [BOOL_TOKENS_INNER, BOOL_TOKENS_OUTER, List.mem_cons,
    List.not_mem_nil, or_false] at h ⊢
  tauto

theorem inferTypeText_eq_spec (s : String) : inferTypeText s = classifySpecText s := by
  unfold inferTypeText classifySpecText
  by_cases h1 : pyStrip s = ""
  · simp [h1]
  by_cases h2 : pyUpper (pyStrip s) ∈ NULL_TOKENS
  · simp [h1, h2]
  by_cases h3 : pyUpper (pyStrip s) ∈ BOOL_TOKENS_INNER
  · have h4 := inner_token_mem_outer _ h3
    simp [h1, h2, h3, h4]
  · by_cases h4 : pyUpper (pyStrip s) ∈ BOOL_TOKENS_OUTER <;>
      simp [h1, h2, h3, h4]

/-- C2: `classify` applies its decision steps in the stated first-match-wins
order: native null/empty text, native boolean/integer/float/datetime, then
for text the null tokens, the six boolean tokens (with the digits "0" and
"1" excluded so that they fall through and classify as Integer), integer
literals, float literals, datetime patterns, else String — equivalently,
the source classifier coincides with the claim-side `classifySpec`
everywhere, and the two digit strings classify as Integer. -/
theorem c2_classifier_decision_order :
    (∀ v : Value, inferType v = classifySpec v) ∧
    inferType (Value.str "0") = DataType.integer ∧
    inferType (Value.str "1") = DataType.integer := by
  refine ⟨?_, by decide, by decide⟩
  intro v
  cases v <;> simp [inferType, classifySpec, inferTypeText_eq_spec]

theorem filter_split_length {A : Type} (p : A → Bool) (l : List A) :
    (l.filter p).length + (l.filter (fun a => !p a)).length = l.length := by
  induction l with
  | nil => rfl
  | cons x xs ih => cases hx : p x <;> simp [List.filter_cons, hx] <;> omega

theorem totalNonNull_eq (values : List Value) :
    values.length - nullCount values = (nonNullTypes values).length := by
  unfold nullCount nonNullTypes
  simp only [ne_eq, decide_not]
  have h := filter_split_length (fun t => decide (t = DataType.null)) (classifications values)
  have hlen : values.length = (classifications values).length := by simp [classifications]
  omega

/-- C4: an empty input column yields Unknown; a non-empty column whose
values all classify as Null yields Null. -/
theorem c4_empty_unknown_all_null_null (threshold : Rat) (values : List Value)
    (hne : values ≠ []) (hall : ∀ v ∈ values, inferType v = DataType.null) :
    inferColumnType [] threshold = DataType.unknown ∧
    inferColumnType values threshold = DataType.null := by
  constructor
  · rfl
  · have hnnt : nonNullTypes values = [] := by
      unfold nonNullTypes classifications
      rw [List.filter_eq_nil_iff]
      intro t ht
      obtain ⟨v, hv, rfl⟩ := List.mem_map.mp ht
      simp [hall v hv]
    have htc : typeCounts values = [] := by
      unfold typeCounts
      rw [hnnt]
      rfl
    unfold inferColumnType
    rw [if_neg (by simp [List.isEmpty_iff, hne])]
    simp [htc]

theorem inferTypeTextTail_ne_unknown (v : String) :
    inferTypeTextTail v ≠ DataType.unknown := by
  unfold inferTypeTextTail
  split_ifs <;> decide

theorem inferTypeText_ne_unknown (s : String) :
    inferTypeText s ≠ DataType.unknown := by
  unfold inferTypeText
  split_ifs <;> first | decide | exact inferTypeTextTail_ne_unknown _

theorem inferType_ne_unknown (v : Value) : inferType v ≠ DataType.unknown := by
  cases v <;> simp [inferType] <;> exact inferTypeText_ne_unknown _

theorem firstSeen_mem {A : Type} [DecidableEq A] (l : List A) (a : A) :
    a ∈ firstSeen l ↔ a ∈ l := by
  induction l with
  | nil => simp [firstSeen]
  | cons x xs ih =>
    simp only [firstSeen, List.mem_cons, List.mem_filter, decide_eq_true_eq, ih]
    by_cases hax : a = x
    · simp [hax]
    · simp [hax]

theorem firstSeen_concat {A : Type} [DecidableEq A] (l : List A) (x : A) :
    firstSeen (l ++ [x]) = if x ∈ l then firstSeen l else firstSeen l ++ [x] := by
  induction l with
  | nil => simp [firstSeen]
  | cons a as ih =>
    have hstep : firstSeen ((a :: as) ++ [x]) =
        a :: (firstSeen (as ++ [x])).filter (fun y => y ≠ a) := rfl
    rw [hstep, ih]
    by_cases hx : x ∈ as
    · rw [if_pos hx, if_pos (List.mem_cons_of_mem a hx)]
      rfl
    · rw [if_neg hx]
      by_cases hax : x = a
      · subst hax
        rw [if_pos (List.mem_cons_self x as)]
        simp [firstSeen, List.filter_append]
      · have hmem : ¬ x ∈ a :: as := by simp [hax, hx]
        rw [if_neg hmem]
        simp [firstSeen, List.filter_append, hax]

theorem map_congr_mem {A B : Type} (l : List A) (f g : A → B)
    (h : ∀ a ∈ l, f a = g a) : l.map f = l.map g := by
  induction l with
  | nil => rfl
  | cons x xs ih =>
    simp only [List.map_cons, h x (List.mem_cons_self x xs)]
    rw [ih (fun a ha => h a (List.mem_cons_of_mem x ha))]

theorem tally_characterization (l : List DataType) :
    l.foldl tallyAdd [] = (firstSeen l).map (fun k => (k, l.count k)) := by
  induction l using List.reverseRecOn with
  | nil => rfl
  | append_singleton ls x ih =>
    rw [List.foldl_append, List.foldl_cons, List.foldl_nil, ih, firstSeen_concat]
    unfold tallyAdd
    by_cases hx : x ∈ ls
    · rw [if_pos hx]
      have hany : (((firstSeen ls).map (fun k => (k, ls.count k))).any
          (fun p => p.1 = x)) = true := by
        simp only [List.any_eq_true, List.mem_map]
        exact ⟨(x, ls.count x), ⟨x, (firstSeen_mem ls x).mpr hx, rfl⟩, by simp⟩
      rw [if_pos hany, List.map_map]
      apply map_congr_mem
      intro k _
      by_cases hk : k = x
      · subst hk
        simp [List.count_append]
      · simp only [Function.comp_apply, hk, if_neg, List.count_append]
        have : List.count k [x] = 0 := by
          simp [List.count_singleton, hk]
        simp [this, hk]
    · rw [if_neg hx]
      have hnone : (((firstSeen ls).map (fun k => (k, ls.count k))).any
          (fun p => p.1 = x)) = false := by
        simp only [List.any_eq_false, List.mem_map]
        rintro p ⟨k, hk, rfl⟩
        have : k ∈ ls := (firstSeen_mem ls k).mp hk
        simp only [decide_eq_true_eq]
        intro hkx
        exact hx (hkx ▸ this)
      rw [if_neg (by simp [hnone]), List.map_append]
      congr 1
      · apply map_congr_mem
        intro k hk
        have hkls : k ∈ ls := (firstSeen_mem ls k).mp hk
        have hkx : k ≠ x := fun h => hx (h ▸ hkls)
        simp [List.count_append, List.count_singleton, hkx]
      · have hcx : ls.count x = 0 := List.count_eq_zero.mpr hx
        simp [List.count_append, hcx]

theorem typeCounts_characterization (values : List Value) :
    typeCounts values = (firstSeen (nonNullTypes values)).map
      (fun k => (k, (nonNullTypes values).count k)) :=
  tally_characterization (nonNullTypes values)

theorem maxSnd_cons (p : DataType × Nat) (t : List (DataType × Nat)) :
    maxSnd (p :: t) = max p.2 (maxSnd t) := rfl

theorem foldPick_find (rest : List (DataType × Nat)) :
    ∀ p, some (rest.foldl (fun best q => if best.2 < q.2 then q else best) p) =
      (p :: rest).find? (fun q => q.2 = maxSnd (p :: rest)) := by
  induction rest with
  | nil =>
    intro p
    have hmax : maxSnd [p] = p.2 := by simp [maxSnd]
    simp [List.find?, hmax]
  | cons q rest ih =>
    intro p
    rw [List.foldl_cons, ih (if p.2 < q.2 then q else p)]
    have hpick : (if p.2 < q.2 then q else p).2 = max p.2 q.2 := by
      by_cases h : p.2 < q.2 <;> simp [h] <;> omega
    have hM : maxSnd ((if p.2 < q.2 then q else p) :: rest) = maxSnd (p :: q :: rest) := by
      rw [maxSnd_cons, maxSnd_cons, maxSnd_cons, hpick, Nat.max_assoc]
    rw [hM]
    have hple : p.2 ≤ maxSnd (p :: q :: rest) := by
      rw [maxSnd_cons]
      omega
    have hqle : q.2 ≤ maxSnd (p :: q :: rest) := by
      rw [maxSnd_cons, maxSnd_cons]
      omega
    by_cases h : p.2 < q.2
    · rw [if_pos h]
      have hpne : ¬ p.2 = maxSnd (p :: q :: rest) := by omega
      exact (List.find?_cons_of_neg _ (by simpa using hpne)).symm
    · rw [if_neg h]
      by_cases hp : p.2 = maxSnd (p :: q :: rest)
      · rw [List.find?_cons_of_pos _ (by simpa using hp),
          List.find?_cons_of_pos _ (by simpa using hp)]
      · have hqne : ¬ q.2 = maxSnd (p :: q :: rest) := by omega
        rw [List.find?_cons_of_neg _ (by simpa using hp),
          List.find?_cons_of_neg _ (by simpa using hp),
          List.find?_cons_of_neg _ (by simpa using hqne)]

theorem mostCommon_find (t : List (DataType × Nat)) (h : t ≠ []) :
    some (mostCommon t) = t.find? (fun q => q.2 = maxSnd t) := by
  cases t with
  | nil => exact absurd rfl h
  | cons p rest => exact foldPick_find rest p

theorem find?_filter_ne {A : Type} [DecidableEq A] (p : A → Bool) (x : A) (hx : p x = false) :
    ∀ l : List A, (l.filter (fun y => y ≠ x)).find? p = l.find? p := by
  intro l
  induction l with
  | nil => rfl
  | cons a as ih =>
    by_cases hax : a = x
    · subst hax
      rw [List.filter_cons_of_neg (by simp), List.find?_cons_of_neg _ (by simp [hx])]
      exact ih
    · rw [List.filter_cons_of_pos (by simp [hax])]
      cases hpa : p a with
      | true => rw [List.find?_cons_of_pos _ hpa, List.find?_cons_of_pos _ hpa]
      | false =>
        rw [List.find?_cons_of_neg _ (by simp [hpa]), List.find?_cons_of_neg _ (by simp [hpa])]
        exact ih

theorem find?_firstSeen {A : Type} [DecidableEq A] (p : A → Bool) (l : List A) :
    (firstSeen l).find? p = l.find? p := by
  induction l with
  | nil => rfl
  | cons x xs ih =>
    show (x :: (firstSeen xs).filter (fun y => y ≠ x)).find? p = (x :: xs).find? p
    cases hpx : p x with
    | true => rw [List.find?_cons_of_pos _ hpx, List.find?_cons_of_pos _ hpx]
    | false =>
      rw [List.find?_cons_of_neg _ (by simp [hpx]), List.find?_cons_of_neg _ (by simp [hpx]),
        find?_filter_ne p x hpx, ih]

theorem maxTypeCount_eq_maxSnd (values : List Value) :
    maxTypeCount values = maxSnd (typeCounts values) := rfl

theorem mostCommon_fst_firstMax (values : List Value) (h : typeCounts values ≠ []) :
    some (mostCommon (typeCounts values)).1 = firstMaxType values := by
  obtain ⟨M, hM⟩ : ∃ M, maxSnd (typeCounts values) = M := ⟨_, rfl⟩
  have hMT : maxTypeCount values = M := (maxTypeCount_eq_maxSnd values).trans hM
  have h1 := mostCommon_find (typeCounts values) h
  rw [hM] at h1
  have h2 : (typeCounts values).find? (fun q => decide (q.2 = M)) =
      Option.map (fun k => (k, (nonNullTypes values).count k))
        ((nonNullTypes values).find?
          (fun t => decide ((nonNullTypes values).count t = M))) := by
    rw [typeCounts_characterization values, List.find?_map]
    rw [show ((fun q : DataType × Nat => decide (q.2 = M)) ∘
        (fun k => (k, (nonNullTypes values).count k))) =
        (fun t => decide ((nonNullTypes values).count t = M)) from by
      funext k
      rfl]
    rw [find?_firstSeen]
  rw [h2] at h1
  unfold firstMaxType
  rw [hMT]
  cases hfind : (nonNullTypes values).find?
      (fun t => decide ((nonNullTypes values).count t = M)) with
  | none =>
    rw [hfind] at h1
    simp at h1
  | some k =>
    rw [hfind] at h1
    simp only [Option.map_some'] at h1
    rw [Option.some_inj] at h1
    rw [h1]

theorem inferColumnType_eq_cases (values : List Value) (threshold : Rat)
    (hne : values ≠ []) (hnn : typeCounts values ≠ []) :
    inferColumnType values threshold =
      if threshold ≤ agreementRatio values then (mostCommon (typeCounts values)).1
      else if (typeCounts values).any (fun p => p.1 = DataType.integer) &&
          (typeCounts values).any (fun p => p.1 = DataType.float) then DataType.float
      else DataType.string := by
  unfold inferColumnType
  rw [if_neg (by simp [List.isEmpty_iff, hne])]
  show (if (typeCounts values).isEmpty then DataType.null
    else if threshold ≤ agreementRatio values then (mostCommon (typeCounts values)).1
    else if (typeCounts values).any (fun p => p.1 = DataType.integer) &&
        (typeCounts values).any (fun p => p.1 = DataType.float) then DataType.float
    else DataType.string) = _
  rw [if_neg (by simp [List.isEmpty_iff, hnn])]

/-- C3: when the column is non-empty and has non-null classifications, the
aggregator checks its rules in order — nulls are excluded from the
agreement denominator; at or above the threshold the most common type is
returned; below it, Float when both Integer and Float were tallied, else
String — and on the mixed numeric example `[1, 2.5, 3, 4.0]` the widening
fires even though no single type reaches the default threshold. -/
theorem c3_order_threshold_widening_string (values : List Value) (threshold : Rat)
    (hne : values ≠ []) (hnn : typeCounts values ≠ []) :
    (values.length - nullCount values = (nonNullTypes values).length) ∧
    (threshold ≤ agreementRatio values →
      inferColumnType values threshold = (mostCommon (typeCounts values)).1) ∧
    (¬ threshold ≤ agreementRatio values →
      ((typeCounts values).any (fun p => p.1 = DataType.integer) = true ∧
        (typeCounts values).any (fun p => p.1 = DataType.float) = true) →
      inferColumnType values threshold = DataType.float) ∧
    (¬ threshold ≤ agreementRatio values →
      ¬ ((typeCounts values).any (fun p => p.1 = DataType.integer) = true ∧
        (typeCounts values).any (fun p => p.1 = DataType.float) = true) →
      inferColumnType values threshold = DataType.string) ∧
    inferColumnType mixedNumericColumn defaultThreshold = DataType.float := by
  rw [inferColumnType_eq_cases values threshold hne hnn]
  refine ⟨totalNonNull_eq values, ?_, ?_, ?_, ?_⟩
  · intro hr
    rw [if_pos hr]
  · intro hr hif
    rw [if_neg hr, if_pos (by simp [hif.1, hif.2])]
  · intro hr hif
    rw [if_neg hr, if_neg (by simpa [Bool.and_eq_true] using hif)]
  · rw [inferColumnType_eq_cases mixedNumericColumn defaultThreshold
      (List.cons_ne_nil _ _) (by decide)]
    have hr : ¬ defaultThreshold ≤ agreementRatio mixedNumericColumn := by
      have h1 : (mostCommon (typeCounts mixedNumericColumn)).2 = 2 := by decide
      have h2 : mixedNumericColumn.length - nullCount mixedNumericColumn = 4 := by decide
      simp only [agreementRatio, h1, h2, defaultThreshold]
      norm_num
    rw [if_neg hr, if_pos (by decide)]

theorem c3_witness :
    mixedNumericColumn ≠ [] ∧ typeCounts mixedNumericColumn ≠ [] ∧
    inferColumnType mixedNumericColumn defaultThreshold = DataType.float :=
  ⟨List.cons_ne_nil _ _, by decide,
    (c3_order_threshold_widening_string mixedNumericColumn defaultThreshold
      (List.cons_ne_nil _ _) (by decide)).2.2.2.2⟩

/-- C8: with two or more non-null types tied for the highest count, and the
agreement check passing, the returned type is the first of the non-null
classifications (in input scan order) whose count is maximal. -/
theorem c8_tie_break_first_seen (values : List Value) (threshold : Rat)
    (hne : values ≠ []) (hnn : typeCounts values ≠ [])
    (_htie : 2 ≤ ((typeCounts values).filter
      (fun p => p.2 = maxTypeCount values)).length)
    (hthr : threshold ≤ agreementRatio values) :
    some (inferColumnType values threshold) = firstMaxType values := by
  rw [inferColumnType_eq_cases values threshold hne hnn, if_pos hthr]
  exact mostCommon_fst_firstMax values hnn

theorem c8_witness :
    ([Value.int 1, Value.str "a"] : List Value) ≠ [] ∧
    typeCounts [Value.int 1, Value.str "a"] ≠ [] ∧
    2 ≤ ((typeCounts [Value.int 1, Value.str "a"]).filter
      (fun p => p.2 = maxTypeCount [Value.int 1, Value.str "a"])).length ∧
    ((1 : Rat)/2) ≤ agreementRatio [Value.int 1, Value.str "a"] ∧
    some (inferColumnType [Value.int 1, Value.str "a"] ((1 : Rat)/2)) =
      firstMaxType [Value.int 1, Value.str "a"] := by
  have hthr : ((1 : Rat)/2) ≤ agreementRatio [Value.int 1, Value.str "a"] := by
    have h1 : (mostCommon (typeCounts [Value.int 1, Value.str "a"])).2 = 1 := by decide
    have h2 : ([Value.int 1, Value.str "a"] : List Value).length -
        nullCount [Value.int 1, Value.str "a"] = 2 := by decide
    simp only [agreementRatio, h1, h2]
    norm_num
  exact ⟨List.cons_ne_nil _ _, by decide, by decide, hthr,
    c8_tie_break_first_seen [Value.int 1, Value.str "a"] ((1 : Rat)/2)
      (List.cons_ne_nil _ _) (by decide) (by decide) hthr⟩

theorem c4_witness :
    ([Value.none] : List Value) ≠ [] ∧
    (∀ v ∈ ([Value.none] : List Value), inferType v = DataType.null) ∧
    inferColumnType [] defaultThreshold = DataType.unknown ∧
    inferColumnType [Value.none] defaultThreshold = DataType.null :=
  ⟨List.cons_ne_nil _ _, by decide,
    (c4_empty_unknown_all_null_null defaultThreshold [Value.none]
      (List.cons_ne_nil _ _) (by decide)).1,
    (c4_empty_unknown_all_null_null defaultThreshold [Value.none]
      (List.cons_ne_nil _ _) (by decide)).2⟩

/-- C10: single-value classification never yields Unknown; the Unknown tag
only arises from column aggregation on an empty list. -/
theorem c10_unknown_only_from_empty (v : Value) (values : List Value) (threshold : Rat)
    (hne : values ≠ []) :
    inferType v ≠ DataType.unknown ∧
    inferColumnType values threshold ≠ DataType.unknown := by
  refine ⟨inferType_ne_unknown v, ?_⟩
  by_cases hnn : typeCounts values = []
  · unfold inferColumnType
    rw [if_neg (by simp [List.isEmpty_iff, hne])]
    show (if (typeCounts values).isEmpty then DataType.null
      else if threshold ≤ agreementRatio values then (mostCommon (typeCounts values)).1
      else if (typeCounts values).any (fun p => p.1 = DataType.integer) &&
          (typeCounts values).any (fun p => p.1 = DataType.float) then DataType.float
      else DataType.string) ≠ DataType.unknown
    rw [if_pos (by simp [List.isEmpty_iff, hnn])]
    decide
  · rw [inferColumnType_eq_cases values threshold hne hnn]
    have hfm := mostCommon_fst_firstMax values hnn
    have hmem : (mostCommon (typeCounts values)).1 ∈ nonNullTypes values := by
      cases hfind : firstMaxType values with
      | none =>
        rw [hfind] at hfm
        exact absurd hfm (by simp)
      | some k =>
        rw [hfind] at hfm
        rw [Option.some_inj] at hfm
        rw [hfm]
        unfold firstMaxType at hfind
        exact List.mem_of_find?_eq_some hfind
    have hex : ∃ w, inferType w = (mostCommon (typeCounts values)).1 := by
      unfold nonNullTypes classifications at hmem
      obtain ⟨ht, _⟩ := List.mem_filter.mp hmem
      obtain ⟨w, _, hw⟩ := List.mem_map.mp ht
      exact ⟨w, hw⟩
    obtain ⟨w, hw⟩ := hex
    by_cases hr : threshold ≤ agreementRatio values
    · rw [if_pos hr, ← hw]
      exact inferType_ne_unknown w
    · rw [if_neg hr]
      split_ifs <;> decide

theorem c10_witness :
    ([Value.int 0] : List Value) ≠ [] ∧
    inferType (Value.int 0) ≠ DataType.unknown ∧
    inferColumnType [Value.int 0] defaultThreshold ≠ DataType.unknown :=
  ⟨List.cons_ne_nil _ _,
    (c10_unknown_only_from_empty (Value.int 0) [Value.int 0] defaultThreshold
      (List.cons_ne_nil _ _)).1,
    (c10_unknown_only_from_empty (Value.int 0) [Value.int 0] defaultThreshold
      (List.cons_ne_nil _ _)).2⟩

theorem findFmt_some (s : String) :
    ∀ (L : List (String × List Dir)) (fid : String), findFmt L s = some fid →
      ∃ pre f suf, L = pre ++ (fid, f) :: suf ∧ strptimeOk f s = true ∧
        ∀ q ∈ pre, strptimeOk q.2 s = false := by
  intro L
  induction L with
  | nil =>
    intro fid h
    exact absurd h (by simp [findFmt])
  | cons p rest ih =>
    intro fid h
    obtain ⟨nm, f⟩ := p
    simp only [findFmt] at h
    cases hok : strptimeOk f s with
    | true =>
      rw [if_pos hok] at h
      rw [Option.some_inj] at h
      exact ⟨[], f, rest, by simp [h], hok, by simp⟩
    | false =>
      rw [if_neg (by simp [hok])] at h
      obtain ⟨pre, f2, suf, heq, hok2, hpre⟩ := ih fid h
      refine ⟨(nm, f) :: pre, f2, suf, by simp [heq], hok2, ?_⟩
      intro q hq
      rcases List.mem_cons.mp hq with hq1 | hq2
      · rw [hq1]
        exact hok
      · exact hpre q hq2

theorem findFmt_none (s : String) :
    ∀ L, findFmt L s = Option.none → ∀ q ∈ L, strptimeOk q.2 s = false := by
  intro L
  induction L with
  | nil =>
    intro _ q hq
    exact absurd hq (List.not_mem_nil q)
  | cons p rest ih =>
    intro h q hq
    obtain ⟨nm, f⟩ := p
    simp only [findFmt] at h
    cases hok : strptimeOk f s with
    | true =>
      rw [if_pos hok] at h
      exact absurd h (by simp)
    | false =>
      rw [if_neg (by simp [hok])] at h
      rcases List.mem_cons.mp hq with hq1 | hq2
      · rw [hq1]
        exact hok
      · exact ih h q hq2

/-- C7: the format detector tries the eight explicit patterns in their fixed
order and returns the first that parses (or none when all fail), while the
classifier accepts the fractional-seconds ISO timestamp through its regex
fallback — so `detect` yields no format for a value the classifier tags as
DateTime. -/
theorem c7_detector_first_match_and_asymmetry :
    detectDateFormat "2024-01-15T09:30:00.123Z" = Option.none ∧
    inferType (Value.str "2024-01-15T09:30:00.123Z") = DataType.datetime ∧
    (∀ (s fid : String), detectDateFormat s = some fid →
      ∃ pre f suf, DATETIME_FORMATS = pre ++ (fid, f) :: suf ∧ strptimeOk f s = true ∧
        ∀ q ∈ pre, strptimeOk q.2 s = false) ∧
    (∀ s : String, detectDateFormat s = Option.none →
      ∀ q ∈ DATETIME_FORMATS, strptimeOk q.2 s = false) := by
  refine ⟨by decide, by decide, ?_, ?_⟩
  · intro s fid h
    exact findFmt_some s DATETIME_FORMATS fid h
  · intro s h
    exact findFmt_none s DATETIME_FORMATS h

theorem c7_witness :
    detectDateFormat "2024-01-15" = some "%Y-%m-%d" ∧
    (∃ pre f suf, DATETIME_FORMATS = pre ++ ("%Y-%m-%d", f) :: suf ∧
      strptimeOk f "2024-01-15" = true ∧
      ∀ q ∈ pre, strptimeOk q.2 "2024-01-15" = false) :=
  ⟨by decide,
    c7_detector_first_match_and_asymmetry.2.2.1 "2024-01-15" "%Y-%m-%d" (by decide)⟩

/-- C1 (failing case): flattening a five-level nested object stores the
level-four mapping raw under the flattened key, and schema detection over
the resulting record raises `TypeError` (`set()` of an unhashable dict)
instead of returning — the totality contract does not hold for
SchemaBuilder. -/
theorem c1_schema_detection_raises :
    (extractRecords deepNested).1 = [[("a_b_c_d", Value.dict [("e", Value.int 1)])]] ∧
    detectSchema (extractRecords deepNested).1 ["a_b_c_d"] =
      Except.error "TypeError: unhashable type" :=
  ⟨rfl, rfl⟩


theorem flattenSpecLoop_eq_flattenLoop_none (depth : Nat) (hd : ¬ depth < MAX_DEPTH)
    (pre : String) :
    ∀ (obj : List (String × Value)) (acc : PyDict),
      flattenSpecLoop Option.none depth pre obj acc = flattenLoop Option.none pre obj acc := by
  intro obj
  induction obj with
  | nil => intro acc; rfl
  | cons kv rest ih =>
    intro acc
    obtain ⟨k, v⟩ := kv
    simp only [flattenSpecLoop, flattenLoop]
    rw [show flattenSpecEntry Option.none depth acc (pre ++ k) v =
        flattenEntry Option.none acc (pre ++ k) v from by
      cases v <;> simp [flattenSpecEntry, flattenEntry, hd]]
    exact ih _

theorem flattenSpecLoop_eq_flattenLoop_some (depth : Nat) (hd : depth < MAX_DEPTH)
    (fl fl' : String → List (String × Value) → PyDict)
    (hfl : ∀ pre2 d, fl pre2 d = fl' pre2 d) (pre : String) :
    ∀ (obj : List (String × Value)) (acc : PyDict),
      flattenSpecLoop (some fl) depth pre obj acc = flattenLoop (some fl') pre obj acc := by
  intro obj
  induction obj with
  | nil => intro acc; rfl
  | cons kv rest ih =>
    intro acc
    obtain ⟨k, v⟩ := kv
    simp only [flattenSpecLoop, flattenLoop]
    rw [show flattenSpecEntry (some fl) depth acc (pre ++ k) v =
        flattenEntry (some fl') acc (pre ++ k) v from by
      cases v <;> simp [flattenSpecEntry, flattenEntry, hd, hfl]]
    exact ih _

theorem flattenSpecAt_eq_source : ∀ (f depth : Nat), depth + f = MAX_DEPTH →
    ∀ (pre : String) (obj : List (String × Value)),
      flattenSpecAt f depth pre obj = flattenAtDepth f pre obj := by
  intro f
  induction f with
  | zero =>
    intro depth hd pre obj
    exact flattenSpecLoop_eq_flattenLoop_none depth (by omega) pre obj []
  | succ f ihf =>
    intro depth hd pre obj
    exact flattenSpecLoop_eq_flattenLoop_some depth (by omega)
      (flattenSpecAt f (depth + 1)) (flattenAtDepth f)
      (fun pre2 d => ihf (depth + 1) (by omega) pre2 d) pre obj []

/-- C5: the recursive flattening rule, stated case by case with the claim's
upward depth counter (recurse and merge with last-write-wins below
`max_depth`; store the raw mapping at `max_depth`; serialize a list headed
by an object to JSON text; join an all-scalar list with ", " with the empty
list giving an empty text; store other primitives unchanged), coincides
with the source flattener at every depth up to `max_depth`, and at depth 0
with `_flatten_object` at its default parameters. -/
theorem c5_flatten_rule_cases (depth : Nat) (pre : String) (obj : List (String × Value))
    (h : depth ≤ MAX_DEPTH) :
    flattenSpec depth pre obj = flattenAtDepth (MAX_DEPTH - depth) pre obj ∧
    flattenSpec 0 pre obj = flattenObject pre obj := by
  constructor
  · exact flattenSpecAt_eq_source (MAX_DEPTH - depth) depth (by omega) pre obj
  · exact flattenSpecAt_eq_source (MAX_DEPTH - 0) 0 (by omega) pre obj

theorem c5_witness :
    3 ≤ MAX_DEPTH ∧
    (flattenSpec 3 "p_" [("x", Value.dict [("y", Value.int 1)])] =
      flattenAtDepth (MAX_DEPTH - 3) "p_" [("x", Value.dict [("y", Value.int 1)])] ∧
     flattenSpec 0 "p_" [("x", Value.dict [("y", Value.int 1)])] =
      flattenObject "p_" [("x", Value.dict [("y", Value.int 1)])]) :=
  ⟨by decide, c5_flatten_rule_cases 3 "p_" [("x", Value.dict [("y", Value.int 1)])] (by decide)⟩

theorem listCount_pos_iff_any (d : PyDict) :
    0 < listCount d ↔ d.any (fun p => valueIsList p.2) = true := by
  unfold listCount
  rw [List.length_pos, Ne, List.filter_eq_nil_iff, List.any_eq_true]
  push_neg
  simp

theorem half_mul_le_iff (a b : Nat) :
    ((a : Rat) * ((1 : Rat) / 2) ≤ (b : Rat)) ↔ a ≤ 2 * b := by
  constructor
  · intro h
    have h3 : (a : Rat) ≤ ((2 * b : Nat) : Rat) := by push_cast; linarith
    exact_mod_cast h3
  · intro h
    have h3 : (a : Rat) ≤ ((2 * b : Nat) : Rat) := by exact_mod_cast h
    push_cast at h3
    linarith

theorem collect_foldl (d : PyDict) :
    ∀ (racc : List PyDict) (hacc : List (String × Nat)),
      d.foldl collectStep (racc, hacc) =
        (racc ++ collectionRecordsSpec d, hacc ++ hierarchySpec d) := by
  induction d with
  | nil =>
    intro racc hacc
    simp [collectionRecordsSpec, hierarchySpec]
  | cons p rest ih =>
    intro racc hacc
    obtain ⟨k, v⟩ := p
    rw [List.foldl_cons]
    cases v
    case list items =>
      simp only [collectStep, ih]
      simp [collectionRecordsSpec, hierarchySpec, List.filter_cons, valueIsList,
        listItems, listLen]
    all_goals
      simp only [collectStep, ih]
      simp [collectionRecordsSpec, hierarchySpec, List.filter_cons, valueIsList]

/-- C6: a top-level dict is a collection dict exactly when at least one
value is a list and the list-valued keys are at least half of all keys; in
that case the hierarchy maps each list-valued key to its list length, dict
items flatten with prefix `k_` and an `_entity_type` stamp, non-dict items
wrap as `\x7b_entity_type, value\x7d`, and non-list keys are dropped; for
every other input shape (array, plain object, scalar, tabular CSV) the
hierarchy map is empty. -/
theorem c6_collection_dict_dispatch :
    (∀ d : PyDict, isCollectionDict d = isCollectionDictSpec d) ∧
    (∀ d : PyDict, isCollectionDict d = true →
      extractRecords (Value.dict d) = (collectionRecordsSpec d, hierarchySpec d)) ∧
    (∀ rs : List Value, (extractRecords (Value.list rs)).2 = []) ∧
    (∀ d : PyDict, isCollectionDict d = false → (extractRecords (Value.dict d)).2 = []) ∧
    (∀ v : Value, valueIsList v = false → (∀ d : PyDict, v ≠ Value.dict d) →
      (extractRecords v).2 = []) ∧
    csvSchemaHierarchy = [] := by
  refine ⟨?_, ?_, ?_, ?_, ?_, rfl⟩
  · intro d
    unfold isCollectionDict isCollectionDictSpec
    rw [Bool.eq_iff_iff]
    simp only [Bool.and_eq_true, decide_eq_true_eq]
    exact and_congr (listCount_pos_iff_any d) (half_mul_le_iff d.length (listCount d))
  · intro d h
    show (if isCollectionDict d then flattenCollectionDict d
      else ([flattenObject "" d], [])) = _
    rw [if_pos h]
    unfold flattenCollectionDict
    rw [collect_foldl d [] []]
    simp
  · intro rs
    rfl
  · intro d h
    show (if isCollectionDict d then flattenCollectionDict d
      else ([flattenObject "" d], [])).2 = []
    rw [if_neg (by simp [h])]
  · intro v h1 h2
    cases v
    case dict d => exact absurd rfl (h2 d)
    case list l => exact absurd h1 (by simp [valueIsList])
    all_goals rfl

theorem c6_witness :
    isCollectionDict [("users", Value.list [Value.dict [("id", Value.int 1)]]),
      ("devices", Value.list [Value.dict [("id", Value.int 9)]])] = true ∧
    extractRecords (Value.dict [("users", Value.list [Value.dict [("id", Value.int 1)]]),
      ("devices", Value.list [Value.dict [("id", Value.int 9)]])]) =
      (collectionRecordsSpec [("users", Value.list [Value.dict [("id", Value.int 1)]]),
        ("devices", Value.list [Value.dict [("id", Value.int 9)]])],
       hierarchySpec [("users", Value.list [Value.dict [("id", Value.int 1)]]),
        ("devices", Value.list [Value.dict [("id", Value.int 9)]])]) := by
  have h : isCollectionDict [("users", Value.list [Value.dict [("id", Value.int 1)]]),
      ("devices", Value.list [Value.dict [("id", Value.int 9)]])] = true := by
    rw [c6_collection_dict_dispatch.1]
    decide
  exact ⟨h, c6_collection_dict_dispatch.2.1 _ h⟩

/-- C9 counterexample: over the records `[\x7b"b": 1\x7d, \x7b"a": 2\x7d]` the field
set is `\x7bb, a\x7d` with first-appearance order `[b, a]`; the Python set
iterating as `[a, b]` is a legal iteration order (a permutation of the key
union), and under it the metadata map iterates as `[a, b]`, not in
first-appearance order — so the order half of the claim is false. -/
theorem c9_counterexample :
    List.Perm ["a", "b"] (unionKeys c9Records) ∧
    schemaKeys (detectSchema c9Records ["a", "b"]) = some ["a", "b"] ∧
    unionKeys c9Records = ["b", "a"] ∧
    (["a", "b"] : List String) ≠ ["b", "a"] := by
  refine ⟨by decide, ?_, by decide, by decide⟩
  rfl

theorem dictGetD_mem (r : PyDict) (f : String) :
    dictGetD r f = Value.none ∨ ∃ p ∈ r, dictGetD r f = p.2 := by
  unfold dictGetD
  cases hfind : r.find? (fun p => p.1 = f) with
  | none => exact Or.inl rfl
  | some p => exact Or.inr ⟨p, List.mem_of_find?_eq_some hfind, rfl⟩

theorem buildFieldMetadata_ok (records : List PyDict)
    (hhash : ∀ r ∈ records, ∀ p ∈ r, hashable p.2 = true) (f : String) :
    ∃ md, buildFieldMetadata records f = Except.ok md := by
  have hall : (fieldNonNull records f).all hashable = true := by
    rw [List.all_eq_true]
    intro v hv
    obtain ⟨hv1, _⟩ := List.mem_filter.mp hv
    obtain ⟨r, hr, hveq⟩ := List.mem_map.mp hv1
    rcases dictGetD_mem r f with h | ⟨p, hp, h⟩
    · rw [← hveq, h]
      rfl
    · rw [← hveq, h]
      exact hhash r hr p hp
  unfold buildFieldMetadata
  rw [if_pos hall]
  exact ⟨_, rfl⟩

theorem buildAll_ok (records : List PyDict)
    (hhash : ∀ r ∈ records, ∀ p ∈ r, hashable p.2 = true) :
    ∀ fo : List String, ∃ l, buildAll records fo = Except.ok l ∧ l.map Prod.fst = fo := by
  intro fo
  induction fo with
  | nil => exact ⟨[], rfl, rfl⟩
  | cons f rest ih =>
    obtain ⟨md, hmd⟩ := buildFieldMetadata_ok records hhash f
    obtain ⟨l, hl, hmap⟩ := ih
    refine ⟨(f, md) :: l, ?_, by simp [hmap]⟩
    simp only [buildAll, hmd, hl]

/-- C9 amended: over hashable-valued records, schema detection succeeds and
the key set of the field-metadata map equals exactly the union of field
names over all records (the round trip holds); the map's iteration order,
however, is the arbitrary set-iteration order handed to it — some
permutation of the field names — not necessarily the order of first
appearance. -/
theorem c9_amended_round_trip (records : List PyDict) (fieldOrder : List String)
    (hperm : fieldOrder.Perm (unionKeys records))
    (hhash : ∀ r ∈ records, ∀ p ∈ r, hashable p.2 = true) :
    ∃ md, detectSchema records fieldOrder = Except.ok md ∧
      md.map Prod.fst = fieldOrder ∧
      (∀ f, f ∈ md.map Prod.fst ↔ f ∈ unionKeys records) := by
  unfold detectSchema
  by_cases hrec : records.isEmpty
  · rw [if_pos hrec]
    have hrecnil : records = [] := List.isEmpty_iff.mp hrec
    subst hrecnil
    have hfo : fieldOrder = [] := List.Perm.eq_nil hperm
    exact ⟨[], rfl, by simp [hfo], by intro f; simp [unionKeys, firstSeen]⟩
  · rw [if_neg hrec]
    obtain ⟨l, hl, hmap⟩ := buildAll_ok records hhash fieldOrder
    refine ⟨l, hl, hmap, ?_⟩
    intro f
    rw [hmap]
    exact hperm.mem_iff

theorem c9_amended_witness :
    List.Perm ["a", "b"] (unionKeys c9Records) ∧
    (∀ r ∈ c9Records, ∀ p ∈ r, hashable p.2 = true) ∧
    (∃ md, detectSchema c9Records ["a", "b"] = Except.ok md ∧
      md.map Prod.fst = ["a", "b"] ∧
      (∀ f, f ∈ md.map Prod.fst ↔ f ∈ unionKeys c9Records)) :=
  ⟨by decide, by decide,
    c9_amended_round_trip c9Records ["a", "b"] (by decide) (by decide)⟩
